import Mathlib

/-!
Verification of the knowledge-base system's matching-and-analytics core.

The definitions below are a shallow embedding of the TypeScript source:
the data model from `src/types.ts`, the two chat matcher implementations
(`src/components/ChatInterface.tsx` and the chat component embedded in
`src/components/KnowledgeEditor.tsx`), the session-turn logic
(`processQuery`), session creation, the staleness analyzer
(`silentKnowledgePoints` in the conversation-analytics view), and the
cascading category delete (`src/contexts/KnowledgeBaseContext.tsx`).

JavaScript `Set`s of tokens are modelled as deduplicated lists (order is
irrelevant to every use site); JS floating-point scores are modelled as
exact rationals; ISO timestamp strings are modelled as integers.
-/

/-- Publication status of a knowledge point (`src/types.ts`). -/
inductive KPStatus
  | published
  | draft
  | archived
deriving DecidableEq, Repr

/-- Message sender tag (`src/types.ts`). -/
inductive Sender
  | user
  | bot
deriving DecidableEq, Repr

/-- `KnowledgePoint` record from `src/types.ts`. -/
structure KnowledgePoint where
  id : String
  categoryId : String
  standardQuestion : String
  similarQuestions : List String
  answer : String
  relatedQuestionIds : List String
  createdAt : Int
  status : KPStatus
  createdBy : String
deriving DecidableEq, Repr

/-- `Category` record from `src/types.ts`. -/
structure Category where
  id : String
  name : String
  parentId : Option String
deriving DecidableEq, Repr

/-- `ChatMessage` record from `src/types.ts`; optional fields are `Option`. -/
structure ChatMessage where
  id : String
  text : String
  sender : Sender
  senderAvatar : Option String
  relatedQuestions : Option (List KnowledgePoint)
  suggestions : Option (List String)
deriving DecidableEq, Repr

/-- `ChatSession` record from `src/types.ts`; `startTime` as an integer instant. -/
structure ChatSession where
  id : String
  userId : String
  startTime : Int
  messages : List ChatMessage
  robotId : Option String
deriving DecidableEq, Repr

/-- `UnansweredQuestion` record from `src/types.ts`. -/
structure UnansweredQuestion where
  id : String
  userId : String
  question : String
  sessionId : String
  timestamp : Int
  robotId : Option String
deriving DecidableEq, Repr

/-- `Robot` record from `src/types.ts`. -/
structure Robot where
  id : String
  name : String
  avatar : String
  welcomeMessage : String
  apiIdentifier : String
  silenceThresholdDays : Int
deriving DecidableEq, Repr

/-- JavaScript `s.split(' ')` on the character list: split at every space,
keeping empty pieces (so the result is never empty). -/
def splitSpace : List Char → List (List Char)
  | [] => [[]]
  | c :: t =>
    match splitSpace t with
    | [] => [[]]
    | p :: ps => if c = ' ' then [] :: p :: ps else (c :: p) :: ps

/-- JavaScript `s.toLowerCase()` (per-character lowercasing). -/
def lowerStr (s : String) : String :=
  String.mk (s.data.map Char.toLower)

/-- JavaScript `s.trim()`: strip leading and trailing whitespace. -/
def trimStr (s : String) : String :=
  String.mk (((s.data.dropWhile Char.isWhitespace).reverse.dropWhile
    Char.isWhitespace).reverse)

/-- The pieces of `s.split(' ')` as strings. -/
def jsTokens (s : String) : List String :=
  (splitSpace s.data).map String.mk

/-- The distinct words of a string split on the space character:
`new Set(s.split(' '))`, modelled as a deduplicated list. -/
def jsWords (s : String) : List String :=
  (jsTokens s).dedup

/-- The same word set as a `Finset`, used to state the score formula. -/
def wordSet (s : String) : Finset String :=
  (jsTokens s).toFinset

/-- The `intersectionSize` loop of `calculateScore`: iterate over the query's
word set and count the words present in the candidate's word set. -/
def countCommon (queryWords candidateWords : List String) : Nat :=
  queryWords.foldl (fun acc w => if w ∈ candidateWords then acc + 1 else acc) 0

/-- `calculateScore` from the chat component embedded in
`src/components/KnowledgeEditor.tsx`: intersection size over the
candidate's word-set size, 0 when the candidate's word set is empty. -/
def calculateScore (query question : String) : ℚ :=
  let queryWords := jsWords query
  let questionWords := jsWords question
  if questionWords.length = 0 then 0
  else mkRat (countCommon queryWords questionWords) questionWords.length

/-- `calculateScore` from `src/components/ChatInterface.tsx`: intersection
size over the larger of the two word-set sizes (`Math.max`), with the
`|| 0` guard mapping a 0/0 to 0. -/
def calculateScoreCI (query question : String) : ℚ :=
  let queryWords := jsWords query
  let questionWords := jsWords question
  let denom := max queryWords.length questionWords.length
  if denom = 0 then 0
  else mkRat (countCommon queryWords questionWords) denom

/-- One comparison inside `findBestMatch`: replace the running best pair
when the new score is strictly greater. -/
def pickStep (acc : Option KnowledgePoint × ℚ) (e : KnowledgePoint × ℚ) :
    Option KnowledgePoint × ℚ :=
  if acc.2 < e.2 then (some e.1, e.2) else acc

/-- Scoring of one knowledge point inside `findBestMatch`: the standard
question first, then each similar question, each compared lowercased. -/
def scanKP (score : String → String → ℚ) (lq : String)
    (acc : Option KnowledgePoint × ℚ) (kp : KnowledgePoint) :
    Option KnowledgePoint × ℚ :=
  let acc1 := pickStep acc (kp, score lq (lowerStr kp.standardQuestion))
  kp.similarQuestions.foldl (fun a sq => pickStep a (kp, score lq (lowerStr sq))) acc1

/-- `findBestMatch` from the chat component embedded in
`src/components/KnowledgeEditor.tsx`: skips non-published points, uses the
candidate-denominator score, and requires a best score above 0.5. -/
def findBestMatch (kps : List KnowledgePoint) (query : String) :
    Option KnowledgePoint :=
  if trimStr query = "" then none
  else
    let lq := lowerStr query
    let r := kps.foldl
      (fun acc kp =>
        if kp.status = KPStatus.published then scanKP calculateScore lq acc kp
        else acc)
      (none, 0)
    if mkRat 1 2 < r.2 then r.1 else none

/-- `findBestMatch` from `src/components/ChatInterface.tsx`: scores every
knowledge point regardless of status, with the `Math.max` denominator. -/
def findBestMatchCI (kps : List KnowledgePoint) (query : String) :
    Option KnowledgePoint :=
  if trimStr query = "" then none
  else
    let lq := lowerStr query
    let r := kps.foldl (fun acc kp => scanKP calculateScoreCI lq acc kp) (none, 0)
    if mkRat 1 2 < r.2 then r.1 else none

/-- `getKnowledgePointById` from `src/contexts/KnowledgeBaseContext.tsx`:
first knowledge point with the given id. -/
def getKnowledgePointById (kps : List KnowledgePoint) (kpid : String) :
    Option KnowledgePoint :=
  kps.find? (fun kp => decide (kp.id = kpid))

/-- `updateChatSession` from `src/contexts/KnowledgeBaseContext.tsx`:
replace the session with the matching id by the full updated record. -/
def updateChatSession (sessions : List ChatSession) (updated : ChatSession) :
    List ChatSession :=
  sessions.map (fun s => if s.id = updated.id then updated else s)

/-- The fixed fallback text of a no-match bot message. -/
def fallbackText : String := "抱歉，我找不到您问题的答案。请尝试换一种问法。"

/-- The related-question list built in the KnowledgeEditor chat's
`processQuery`: `relatedQuestionIds` resolved through
`getKnowledgePointById`, keeping only existing published points. -/
def relatedFor (kps : List KnowledgePoint) (kp : KnowledgePoint) :
    List KnowledgePoint :=
  (kp.relatedQuestionIds.map (fun rid => getKnowledgePointById kps rid)).foldr
    (fun o acc =>
      match o with
      | some p => if p.status = KPStatus.published then p :: acc else acc
      | none => acc) []

/-- The related-question list built in `src/components/ChatInterface.tsx`'s
`processQuery`: only the existence filter (`!!kp`), no status filter. -/
def relatedForCI (kps : List KnowledgePoint) (kp : KnowledgePoint) :
    List KnowledgePoint :=
  (kp.relatedQuestionIds.map (fun rid => getKnowledgePointById kps rid)).foldr
    (fun o acc =>
      match o with
      | some p => p :: acc
      | none => acc) []

/-- Observable outcome of one KnowledgeEditor-chat turn: the session after
both appends, the persisted session store, the emitted unanswered-question
records, and the two messages appended by the turn. -/
structure TurnResult where
  session : ChatSession
  store : List ChatSession
  unanswered : List UnansweredQuestion
  userMessage : ChatMessage
  botMessage : ChatMessage
deriving DecidableEq, Repr

/-- `processQuery` of the chat component embedded in
`src/components/KnowledgeEditor.tsx`: append the user message, run the
matcher, append the answer (or fallback plus one unanswered-question
record), and persist the full updated session via `updateChatSession`. -/
def processQueryKE (kps : List KnowledgePoint) (store : List ChatSession)
    (session : ChatSession) (robot : Robot) (query : String) (now : Int) :
    TurnResult :=
  let userMsg : ChatMessage :=
    { id := "user-" ++ toString now, text := query, sender := Sender.user,
      senderAvatar := none, relatedQuestions := none, suggestions := none }
  let s1 : ChatSession := { session with messages := session.messages ++ [userMsg] }
  match findBestMatch kps query with
  | some kp =>
    let botMsg : ChatMessage :=
      { id := "bot-" ++ toString now, text := kp.answer, sender := Sender.bot,
        senderAvatar := some robot.avatar,
        relatedQuestions := some (relatedFor kps kp), suggestions := none }
    let s2 : ChatSession := { s1 with messages := s1.messages ++ [botMsg] }
    { session := s2, store := updateChatSession store s2, unanswered := [],
      userMessage := userMsg, botMessage := botMsg }
  | none =>
    let botMsg : ChatMessage :=
      { id := "bot-" ++ toString now, text := fallbackText, sender := Sender.bot,
        senderAvatar := some robot.avatar, relatedQuestions := none,
        suggestions := none }
    let uq : UnansweredQuestion :=
      { id := "uq-" ++ toString now, userId := session.userId, question := query,
        sessionId := session.id, timestamp := now, robotId := session.robotId }
    let s2 : ChatSession := { s1 with messages := s1.messages ++ [botMsg] }
    { session := s2, store := updateChatSession store s2, unanswered := [uq],
      userMessage := userMsg, botMessage := botMsg }

/-- Observable outcome of one `src/components/ChatInterface.tsx` turn: that
component keeps only a message list and records no unanswered questions. -/
structure TurnResultCI where
  messages : List ChatMessage
  userMessage : ChatMessage
  botMessage : ChatMessage
deriving DecidableEq, Repr

/-- `processQuery` from `src/components/ChatInterface.tsx`. -/
def processQueryCI (kps : List KnowledgePoint) (messages : List ChatMessage)
    (query : String) (now : Int) : TurnResultCI :=
  let userMsg : ChatMessage :=
    { id := "user-" ++ toString now, text := query, sender := Sender.user,
      senderAvatar := none, relatedQuestions := none, suggestions := none }
  match findBestMatchCI kps query with
  | some kp =>
    let botMsg : ChatMessage :=
      { id := "bot-" ++ toString now, text := kp.answer, sender := Sender.bot,
        senderAvatar := none, relatedQuestions := some (relatedForCI kps kp),
        suggestions := none }
    { messages := messages ++ [userMsg] ++ [botMsg],
      userMessage := userMsg, botMessage := botMsg }
  | none =>
    let botMsg : ChatMessage :=
      { id := "bot-" ++ toString now, text := fallbackText, sender := Sender.bot,
        senderAvatar := none, relatedQuestions := none, suggestions := none }
    { messages := messages ++ [userMsg] ++ [botMsg],
      userMessage := userMsg, botMessage := botMsg }

/-- The fixed built-in pair of example questions used when no starter
questions exist. -/
def fallbackSuggestions : List String := ["退货政策是什么？", "如何更新账单信息？"]

/-- `knowledgePoints.slice(0, 3).map(kp => kp.standardQuestion)`. -/
def starterQuestions (kps : List KnowledgePoint) : List String :=
  (kps.take 3).map (fun kp => kp.standardQuestion)

/-- The suggestion list seeded into the initial bot message:
`starterQuestions.length > 0 ? starterQuestions : [pair]` (this exact
expression appears both in the KnowledgeEditor chat's session setup and in
`src/components/ChatInterface.tsx`'s welcome message). -/
def initialSuggestions (kps : List KnowledgePoint) : List String :=
  let sq := starterQuestions kps
  if 0 < sq.length then sq else fallbackSuggestions

/-- Default welcome text used when the robot's `welcomeMessage` is empty. -/
def defaultWelcome : String := "您好！我是您的智能客服助手。"

/-- Session creation in the KnowledgeEditor chat's robot-selection effect:
a fresh session holding one initial bot message carrying the seeded
suggestions. -/
def newSessionKE (robot : Robot) (kps : List KnowledgePoint) (now : Int)
    (uid : String) : ChatSession :=
  let initMsg : ChatMessage :=
    { id := "bot-init",
      text := if robot.welcomeMessage = "" then defaultWelcome
              else robot.welcomeMessage,
      sender := Sender.bot, senderAvatar := some robot.avatar,
      relatedQuestions := none,
      suggestions := some (initialSuggestions kps) }
  { id := "session-" ++ toString now, userId := uid, startTime := now,
    robotId := some robot.id, messages := [initMsg] }

/-- Character-list matching helper for JavaScript `String.includes`:
does the needle occur starting at the head of the haystack? -/
def matchFrom : List Char → List Char → Bool
  | [], _ => true
  | _ :: _, [] => false
  | a :: as, b :: bs => a == b && matchFrom as bs

/-- Does the needle occur anywhere in the haystack? -/
def hasSub (needle : List Char) : List Char → Bool
  | [] => matchFrom needle []
  | c :: t => matchFrom needle (c :: t) || hasSub needle t

/-- JavaScript `hay.includes(needle)`. -/
def strIncludes (hay needle : String) : Bool := hasSub needle.data hay.data

/-- The session filter of `silentKnowledgePoints`:
`new Date(s.startTime) > thresholdDate && (!robotFilter || s.robotId === robotFilter)`. -/
def sessionInWindow (threshold : Int) (robotFilter : Option String)
    (s : ChatSession) : Bool :=
  decide (threshold < s.startTime) &&
    (match robotFilter with
     | none => true
     | some r => decide (s.robotId = some r))

/-- `silentKnowledgePoints` from the conversation-analytics silent-questions
view (`src/unnamed/part_000`): published knowledge points whose answer text
was not emitted by any bot message of a recent session. -/
def silentKnowledgePoints (kps : List KnowledgePoint)
    (sessions : List ChatSession) (silenceDays : Int)
    (robotFilter : Option String) (searchTerm : String) (now : Int) :
    List KnowledgePoint :=
  let threshold := now - silenceDays
  let recentSessions := sessions.filter (sessionInWindow threshold robotFilter)
  let usedAnswers := recentSessions.foldr
    (fun s acc =>
      ((s.messages.filter (fun m => decide (m.sender = Sender.bot))).map
        (fun m => m.text)) ++ acc) []
  kps.filter (fun kp =>
    decide (kp.status = KPStatus.published) && !(usedAnswers.contains kp.answer) &&
      (searchTerm == "" ||
        strIncludes (lowerStr kp.standardQuestion) (lowerStr searchTerm)))

/-- The recursive `getSubCats` walk of `deleteCategory`
(`src/contexts/KnowledgeBaseContext.tsx`), with explicit fuel: ids of the
categories whose `parentId` chain reaches the given id. -/
def subCats (cats : List Category) : Nat → String → List String
  | 0, _ => []
  | n + 1, pid =>
    cats.foldr
      (fun c acc =>
        if c.parentId = some pid then c.id :: subCats cats n c.id ++ acc
        else acc) []

/-- `deleteCategory` from `src/contexts/KnowledgeBaseContext.tsx`: remove
the category, its collected descendants, and every knowledge point whose
`categoryId` is among the removed ids. -/
def deleteCategory (cats : List Category) (kps : List KnowledgePoint)
    (cid : String) : List Category × List KnowledgePoint :=
  let catsToDelete := cid :: subCats cats cats.length cid
  (cats.filter (fun c => decide (c.id ∉ catsToDelete)),
   kps.filter (fun kp => decide (kp.categoryId ∉ catsToDelete)))

/-- One `parentId` edge: `y` is a category of the list whose parent is `x`. -/
def childOf (cats : List Category) (x y : String) : Prop :=
  ∃ c ∈ cats, c.parentId = some x ∧ c.id = y

/-- `y` is a strict descendant of `x`: transitive closure over `parentId`. -/
def Descendant (cats : List Category) (x y : String) : Prop :=
  Relation.TransGen (childOf cats) x y

/-- A `parentId` chain of the given length. -/
def chainN (cats : List Category) : Nat → String → String → Prop
  | 0, a, b => a = b
  | n + 1, a, b => ∃ m, childOf cats a m ∧ chainN cats n m b

/-- The flattened comparison-entry list of one knowledge point: the standard
question first, then each similar question, each scored lowercased. -/
def entriesOf (score : String → String → ℚ) (lq : String)
    (kp : KnowledgePoint) : List (KnowledgePoint × ℚ) :=
  (kp, score lq (lowerStr kp.standardQuestion)) ::
    kp.similarQuestions.map (fun sq => (kp, score lq (lowerStr sq)))

/-- All comparison entries scanned by the KnowledgeEditor matcher, in
iteration order: published candidates only. -/
def scoredEntriesKE (lq : String) : List KnowledgePoint → List (KnowledgePoint × ℚ)
  | [] => []
  | kp :: t =>
    (if kp.status = KPStatus.published then entriesOf calculateScore lq kp
     else []) ++ scoredEntriesKE lq t

/-- All comparison entries scanned by the ChatInterface matcher, in
iteration order: every candidate. -/
def scoredEntriesCI (lq : String) : List KnowledgePoint → List (KnowledgePoint × ℚ)
  | [] => []
  | kp :: t => entriesOf calculateScoreCI lq kp ++ scoredEntriesCI lq t

/-- The running maximum of entry scores, seeded with `h`. -/
def maxScore (h : ℚ) (l : List (KnowledgePoint × ℚ)) : ℚ :=
  l.foldl (fun a e => max a e.2) h

/-- The first entry (in iteration order) attaining the maximal score. -/
def firstArgmax (es : List (KnowledgePoint × ℚ)) : Option KnowledgePoint :=
  (es.find? (fun e => decide (e.2 = maxScore 0 es))).map Prod.fst

/-- A published fixture knowledge point used to instantiate theorems. -/
def kpHello : KnowledgePoint :=
  { id := "kp-hello", categoryId := "cat-1", standardQuestion := "hello",
    similarQuestions := ["hi there"], answer := "<div>hello answer</div>",
    relatedQuestionIds := [], createdAt := 0, status := KPStatus.published,
    createdBy := "admin" }

/-- A draft fixture knowledge point whose question matches the query
`"hello"` textually. -/
def kpDraftHello : KnowledgePoint :=
  { id := "kp-draft", categoryId := "cat-1", standardQuestion := "hello",
    similarQuestions := [], answer := "<div>draft answer</div>",
    relatedQuestionIds := [], createdAt := 0, status := KPStatus.draft,
    createdBy := "admin" }

/-- A published fixture knowledge point referenced as a related question. -/
def kpRel : KnowledgePoint :=
  { id := "kp-rel", categoryId := "cat-1", standardQuestion := "billing",
    similarQuestions := [], answer := "<div>rel answer</div>",
    relatedQuestionIds := [], createdAt := 0, status := KPStatus.published,
    createdBy := "admin" }

/-- A published fixture knowledge point whose related ids include a
published point, a draft point, and a dangling id. -/
def kpMain : KnowledgePoint :=
  { id := "kp-main", categoryId := "cat-1", standardQuestion := "pay",
    similarQuestions := [], answer := "<div>pay answer</div>",
    relatedQuestionIds := ["kp-rel", "kp-draft", "kp-missing"],
    createdAt := 0, status := KPStatus.published, createdBy := "admin" }

/-- A fixture robot. -/
def robotFix : Robot :=
  { id := "robot-1", name := "bot", avatar := "avatar.png",
    welcomeMessage := "", apiIdentifier := "api-1",
    silenceThresholdDays := 30 }

/-- A fixture chat session with an empty message log. -/
def sessFix : ChatSession :=
  { id := "session-1", userId := "user-1", startTime := 0, messages := [],
    robotId := some "robot-1" }

/-- Prop form of the staleness robot filter: no filter, or matching id. -/
def robotOk (robotFilter : Option String) (s : ChatSession) : Prop :=
  match robotFilter with
  | none => True
  | some r => s.robotId = some r

/-- The session served the given answer text in some bot message. -/
def botUses (s : ChatSession) (a : String) : Prop :=
  ∃ m ∈ s.messages, m.sender = Sender.bot ∧ m.text = a

/-- A published fixture knowledge point for the staleness boundary case. -/
def kpAns : KnowledgePoint :=
  { id := "kp-ans", categoryId := "cat-1", standardQuestion := "faq",
    similarQuestions := [], answer := "<div>the answer</div>",
    relatedQuestionIds := [], createdAt := 0, status := KPStatus.published,
    createdBy := "admin" }

/-- A bot message echoing `kpAns`'s answer verbatim. -/
def msgBotAns : ChatMessage :=
  { id := "m-1", text := "<div>the answer</div>", sender := Sender.bot,
    senderAvatar := none, relatedQuestions := none, suggestions := none }

/-- A session starting exactly at the lower window boundary
(`now = 100`, window 30 days, `startTime = 70`). -/
def sessBoundary : ChatSession :=
  { id := "s-b", userId := "u-1", startTime := 70, messages := [msgBotAns],
    robotId := none }

/-- Fixture category `C` (a root). -/
def catC : Category := { id := "c", name := "C", parentId := none }

/-- Fixture category `D`, a child of `C`. -/
def catD : Category := { id := "d", name := "D", parentId := some "c" }

/-- Fixture category `E`, an unrelated root. -/
def catE : Category := { id := "e", name := "E", parentId := none }

/-- Fixture knowledge point filed under category `D`. -/
def kpInD : KnowledgePoint :=
  { id := "kp-in-d", categoryId := "d", standardQuestion := "q-d",
    similarQuestions := [], answer := "<div>d</div>",
    relatedQuestionIds := [], createdAt := 0, status := KPStatus.published,
    createdBy := "admin" }

/-- Fixture knowledge point filed under category `E`. -/
def kpInE : KnowledgePoint :=
  { id := "kp-in-e", categoryId := "e", standardQuestion := "q-e",
    similarQuestions := [], answer := "<div>e</div>",
    relatedQuestionIds := [], createdAt := 0, status := KPStatus.published,
    createdBy := "admin" }

/-- A depth function witnessing that the fixture categories form a forest. -/
def depthFix : String → Nat := fun s => if s = "d" then 1 else 0

lemma maxScore_nil (h : ℚ) : maxScore h [] = h := rfl

lemma maxScore_cons (h : ℚ) (e : KnowledgePoint × ℚ) (t : List (KnowledgePoint × ℚ)) :
    maxScore h (e :: t) = maxScore (max h e.2) t := rfl

lemma le_maxScore (l : List (KnowledgePoint × ℚ)) (h : ℚ) : h ≤ maxScore h l := by
  induction l generalizing h with
  | nil => exact le_refl h
  | cons e t ih =>
    rw [maxScore_cons]
    exact le_trans (le_max_left h e.2) (ih (max h e.2))

lemma mem_le_maxScore (l : List (KnowledgePoint × ℚ)) (h : ℚ) :
    ∀ e ∈ l, e.2 ≤ maxScore h l := by
  induction l generalizing h with
  | nil => intro e he; cases he
  | cons a t ih =>
    intro e he
    rw [maxScore_cons]
    rcases List.mem_cons.mp he with rfl | ht
    · exact le_trans (le_max_right h e.2) (le_maxScore t (max h e.2))
    · exact ih (max h a.2) e ht

lemma pickStep_snd (acc : Option KnowledgePoint × ℚ) (e : KnowledgePoint × ℚ) :
    (pickStep acc e).2 = max acc.2 e.2 := by
  unfold pickStep
  split
  · exact (max_eq_right (le_of_lt (by assumption))).symm
  · exact (max_eq_left (not_lt.mp (by assumption))).symm

lemma find?_congr {α : Type} (l : List α) (p q : α → Bool)
    (h : ∀ e ∈ l, p e = q e) : l.find? p = l.find? q := by
  induction l with
  | nil => rfl
  | cons a t ih =>
    have ha := h a (by simp)
    rw [List.find?_cons, List.find?_cons, ha,
      ih (fun e he => h e (by simp [he]))]

lemma foldl_pickStep_eq (l : List (KnowledgePoint × ℚ)) (acc : Option KnowledgePoint × ℚ) :
    l.foldl pickStep acc =
      ((if acc.2 < maxScore acc.2 l then
          (l.find? (fun e => decide (maxScore acc.2 l ≤ e.2))).map Prod.fst
        else acc.1), maxScore acc.2 l) := by
  induction l generalizing acc with
  | nil => simp [maxScore_nil]
  | cons e t ih =>
    rw [List.foldl_cons, ih, maxScore_cons]
    by_cases hlt : acc.2 < e.2
    · have hps : pickStep acc e = (some e.1, e.2) := by simp [pickStep, hlt]
      have hmax : max acc.2 e.2 = e.2 := max_eq_right (le_of_lt hlt)
      rw [hps, hmax]
      by_cases hM : e.2 < maxScore e.2 t
      · have hcond : acc.2 < maxScore e.2 t := lt_trans hlt hM
        have hhead : (decide (maxScore e.2 t ≤ e.2)) = false := by
          simp [not_le.mpr hM]
        rw [if_pos hM, if_pos hcond, List.find?_cons, hhead]
      · have heq : maxScore e.2 t = e.2 := le_antisymm (not_lt.mp hM) (le_maxScore t e.2)
        have hcond : acc.2 < maxScore e.2 t := by rw [heq]; exact hlt
        have hhead : (decide (maxScore e.2 t ≤ e.2)) = true := by
          simp [heq]
        rw [if_neg hM, if_pos hcond, List.find?_cons, hhead]
        simp [heq]
    · have hps : pickStep acc e = acc := by simp [pickStep, hlt]
      have hmax : max acc.2 e.2 = acc.2 := max_eq_left (not_lt.mp hlt)
      rw [hps, hmax]
      by_cases hM : acc.2 < maxScore acc.2 t
      · have hhead : (decide (maxScore acc.2 t ≤ e.2)) = false := by
          have hx : e.2 < maxScore acc.2 t := lt_of_le_of_lt (not_lt.mp hlt) hM
          simp [not_le.mpr hx]
        rw [if_pos hM, if_pos hM, List.find?_cons, hhead]
      · rw [if_neg hM, if_neg hM]

lemma scanKP_eq (score : String → String → ℚ) (lq : String)
    (acc : Option KnowledgePoint × ℚ) (kp : KnowledgePoint) :
    scanKP score lq acc kp = (entriesOf score lq kp).foldl pickStep acc := by
  simp [scanKP, entriesOf, List.foldl_cons, List.foldl_map]

lemma foldl_scanKE (lq : String) (kps : List KnowledgePoint)
    (acc : Option KnowledgePoint × ℚ) :
    kps.foldl
      (fun acc kp =>
        if kp.status = KPStatus.published then scanKP calculateScore lq acc kp
        else acc) acc
      = (scoredEntriesKE lq kps).foldl pickStep acc := by
  induction kps generalizing acc with
  | nil => rfl
  | cons kp t ih =>
    rw [List.foldl_cons, scoredEntriesKE, List.foldl_append]
    by_cases hp : kp.status = KPStatus.published
    · have hstep :
          (if kp.status = KPStatus.published then scanKP calculateScore lq acc kp
           else acc) = scanKP calculateScore lq acc kp := if_pos hp
      rw [hstep, ih, scanKP_eq, if_pos hp]
    · have hstep :
          (if kp.status = KPStatus.published then scanKP calculateScore lq acc kp
           else acc) = acc := if_neg hp
      rw [hstep, ih, if_neg hp, List.foldl_nil]

lemma foldl_scanCI (lq : String) (kps : List KnowledgePoint)
    (acc : Option KnowledgePoint × ℚ) :
    kps.foldl (fun acc kp => scanKP calculateScoreCI lq acc kp) acc
      = (scoredEntriesCI lq kps).foldl pickStep acc := by
  induction kps generalizing acc with
  | nil => rfl
  | cons kp t ih =>
    rw [List.foldl_cons, scoredEntriesCI, List.foldl_append, scanKP_eq, ih]

lemma find?_max_eq (es : List (KnowledgePoint × ℚ)) :
    es.find? (fun e => decide (maxScore 0 es ≤ e.2)) =
      es.find? (fun e => decide (e.2 = maxScore 0 es)) := by
  apply find?_congr
  intro e he
  have hle := mem_le_maxScore es 0 e he
  by_cases heq : e.2 = maxScore 0 es
  · simp [heq]
  · have hlt : e.2 < maxScore 0 es := lt_of_le_of_ne hle heq
    simp [not_le.mpr hlt, heq]

lemma threshold_select (es : List (KnowledgePoint × ℚ)) :
    (if mkRat 1 2 < (es.foldl pickStep (none, 0)).2 then
      (es.foldl pickStep (none, 0)).1
     else none) =
      (if mkRat 1 2 < maxScore 0 es then firstArgmax es else none) := by
  rw [foldl_pickStep_eq]
  by_cases hM : mkRat 1 2 < maxScore 0 es
  · have h0 : (0 : ℚ) < maxScore 0 es := lt_of_le_of_lt (by decide) hM
    rw [if_pos hM, if_pos hM, if_pos h0, firstArgmax, find?_max_eq]
  · rw [if_neg hM, if_neg hM]

lemma findBestMatch_char (kps : List KnowledgePoint) (query : String)
    (h : trimStr query ≠ "") :
    findBestMatch kps query =
      (if mkRat 1 2 < maxScore 0 (scoredEntriesKE (lowerStr query) kps) then
        firstArgmax (scoredEntriesKE (lowerStr query) kps)
       else none) := by
  unfold findBestMatch
  rw [if_neg h]
  show (if mkRat 1 2 < (kps.foldl _ (none, 0)).2 then _ else none) = _
  rw [foldl_scanKE, threshold_select]

lemma findBestMatchCI_char (kps : List KnowledgePoint) (query : String)
    (h : trimStr query ≠ "") :
    findBestMatchCI kps query =
      (if mkRat 1 2 < maxScore 0 (scoredEntriesCI (lowerStr query) kps) then
        firstArgmax (scoredEntriesCI (lowerStr query) kps)
       else none) := by
  unfold findBestMatchCI
  rw [if_neg h]
  show (if mkRat 1 2 < (kps.foldl _ (none, 0)).2 then _ else none) = _
  rw [foldl_scanCI, threshold_select]

lemma entriesOf_fst (score : String → String → ℚ) (lq : String)
    (kp : KnowledgePoint) : ∀ e ∈ entriesOf score lq kp, e.1 = kp := by
  intro e he
  rcases List.mem_cons.mp he with rfl | hm
  · rfl
  · rcases List.mem_map.mp hm with ⟨sq, _, rfl⟩
    rfl

lemma scoredEntriesKE_published (lq : String) (kps : List KnowledgePoint) :
    ∀ e ∈ scoredEntriesKE lq kps, e.1.status = KPStatus.published := by
  induction kps with
  | nil => intro e he; cases he
  | cons kp t ih =>
    intro e he
    rw [scoredEntriesKE] at he
    rcases List.mem_append.mp he with hh | ht
    · by_cases hp : kp.status = KPStatus.published
      · rw [if_pos hp] at hh
        rw [entriesOf_fst _ _ _ e hh]
        exact hp
      · rw [if_neg hp] at hh
        cases hh
    · exact ih e ht

lemma foldl_pickStep_mem (l : List (KnowledgePoint × ℚ))
    (acc : Option KnowledgePoint × ℚ) (k : KnowledgePoint)
    (hk : (l.foldl pickStep acc).1 = some k) :
    acc.1 = some k ∨ ∃ s, (k, s) ∈ l := by
  induction l generalizing acc with
  | nil => exact Or.inl hk
  | cons e t ih =>
    rw [List.foldl_cons] at hk
    rcases ih (pickStep acc e) hk with h1 | ⟨s, hs⟩
    · unfold pickStep at h1
      by_cases hlt : acc.2 < e.2
      · rw [if_pos hlt] at h1
        have : e.1 = k := Option.some.inj h1
        exact Or.inr ⟨e.2, by rw [← this]; simp⟩
      · rw [if_neg hlt] at h1
        exact Or.inl h1
    · exact Or.inr ⟨s, by simp [hs]⟩

lemma jsWords_length (s : String) : (jsWords s).length = (wordSet s).card := by
  rw [wordSet, List.card_toFinset]
  rfl

lemma foldl_count (cl : List String) (l : List String) (n : Nat) :
    l.foldl (fun acc w => if w ∈ cl then acc + 1 else acc) n =
      n + l.countP (fun w => decide (w ∈ cl)) := by
  induction l generalizing n with
  | nil => simp
  | cons w t ih =>
    rw [List.foldl_cons, List.countP_cons]
    by_cases hw : w ∈ cl
    · rw [if_pos hw, ih]
      simp [hw]
      omega
    · rw [if_neg hw, ih]
      simp [hw]

lemma countCommon_eq (q c : String) :
    countCommon (jsWords q) (jsWords c) = ((wordSet q) ∩ (wordSet c)).card := by
  have hinter : (wordSet q) ∩ (wordSet c) =
      ((jsWords q).filter (fun w => decide (w ∈ jsWords c))).toFinset := by
    ext x
    simp [wordSet, jsWords, List.mem_filter, List.mem_dedup]
  have hnd : (jsWords q).Nodup := by
    rw [jsWords]
    exact List.nodup_dedup (jsTokens q)
  rw [hinter, List.card_toFinset, List.Nodup.dedup (hnd.filter _),
    countCommon, foldl_count, List.countP_eq_length_filter, Nat.zero_add]

lemma calculateScore_eq (q c : String) :
    calculateScore q c =
      (if (wordSet c).card = 0 then 0
       else mkRat ((wordSet q ∩ wordSet c).card) ((wordSet c).card)) := by
  rw [calculateScore]
  show (if (jsWords c).length = 0 then (0 : ℚ)
        else mkRat (countCommon (jsWords q) (jsWords c)) (jsWords c).length) = _
  rw [jsWords_length, countCommon_eq]

lemma calculateScoreCI_eq (q c : String) :
    calculateScoreCI q c =
      (if max (wordSet q).card (wordSet c).card = 0 then 0
       else mkRat ((wordSet q ∩ wordSet c).card)
         (max (wordSet q).card (wordSet c).card)) := by
  rw [calculateScoreCI]
  show (if max (jsWords q).length (jsWords c).length = 0 then (0 : ℚ)
        else mkRat (countCommon (jsWords q) (jsWords c))
          (max (jsWords q).length (jsWords c).length)) = _
  rw [jsWords_length, jsWords_length, countCommon_eq]

lemma score_eq_of_le (q c : String)
    (h : (jsWords q).length ≤ (jsWords c).length) :
    calculateScoreCI q c = calculateScore q c := by
  rw [calculateScore, calculateScoreCI]
  show (if max (jsWords q).length (jsWords c).length = 0 then (0 : ℚ)
        else mkRat (countCommon (jsWords q) (jsWords c))
          (max (jsWords q).length (jsWords c).length)) =
    (if (jsWords c).length = 0 then (0 : ℚ)
     else mkRat (countCommon (jsWords q) (jsWords c)) (jsWords c).length)
  rw [max_eq_right h]

lemma scoredEntries_eq (lq : String) (kps : List KnowledgePoint)
    (hpub : ∀ kp ∈ kps, kp.status = KPStatus.published)
    (hsz : ∀ kp ∈ kps,
      (jsWords lq).length ≤ (jsWords (lowerStr kp.standardQuestion)).length ∧
      ∀ sq ∈ kp.similarQuestions,
        (jsWords lq).length ≤ (jsWords (lowerStr sq)).length) :
    scoredEntriesCI lq kps = scoredEntriesKE lq kps := by
  induction kps with
  | nil => rfl
  | cons kp t ih =>
    rw [scoredEntriesCI, scoredEntriesKE, if_pos (hpub kp (by simp))]
    have hkp := hsz kp (by simp)
    have hhead : entriesOf calculateScoreCI lq kp = entriesOf calculateScore lq kp := by
      rw [entriesOf, entriesOf, score_eq_of_le _ _ hkp.1]
      congr 1
      exact List.map_congr_left (fun sq hsq => by
        rw [score_eq_of_le _ _ (hkp.2 sq hsq)])
    rw [hhead, ih (fun x hx => hpub x (by simp [hx])) (fun x hx => hsz x (by simp [hx]))]

lemma mkRat_nat_div (i n : Nat) : (mkRat i n : ℚ) = (i : ℚ) / (n : ℚ) := by
  rw [Rat.mkRat_eq_div]
  push_cast
  rfl

/-- Claim C1: the KnowledgeEditor matcher's similarity score is exactly
`i / n`, the size of the intersection of the space-tokenized lowercase word
sets divided by the size of the candidate's word set (0 when that set is
empty, with no division fault); the ChatInterface matcher's score instead
divides by the larger of the two word-set sizes. -/
theorem calculateScore_formula (q c : String) :
    (calculateScore q c =
      (if (wordSet c).card = 0 then 0
       else ((wordSet q ∩ wordSet c).card : ℚ) / ((wordSet c).card : ℚ))) ∧
    (calculateScoreCI q c =
      (if max (wordSet q).card (wordSet c).card = 0 then 0
       else ((wordSet q ∩ wordSet c).card : ℚ) /
         (max (wordSet q).card (wordSet c).card : ℚ))) := by
  constructor
  · rw [calculateScore_eq q c, mkRat_nat_div]
  · rw [calculateScoreCI_eq q c, mkRat_nat_div]
    norm_cast

/-- Counterexample to claim C1 as stated: the ChatInterface score of the
query `"a b"` against the candidate `"a"` is not the intersection size
divided by the candidate's word-set size. -/
theorem calculateScoreCI_denominator_cex :
    calculateScoreCI "a b" "a" ≠
      mkRat ((wordSet "a b" ∩ wordSet "a").card) ((wordSet "a").card) := by
  decide

/-- Claim C2 (amended): the KnowledgeEditor chat's matcher is run against
only the published knowledge points, so it never returns a point whose
status is draft or archived. -/
theorem findBestMatch_only_published (kps : List KnowledgePoint)
    (query : String) (kp : KnowledgePoint)
    (h : findBestMatch kps query = some kp) :
    kp.status = KPStatus.published := by
  by_cases htrim : trimStr query = ""
  · rw [findBestMatch, if_pos htrim] at h
    cases h
  · rw [findBestMatch_char kps query htrim] at h
    by_cases hM : mkRat 1 2 < maxScore 0 (scoredEntriesKE (lowerStr query) kps)
    · rw [if_pos hM, firstArgmax] at h
      rcases Option.map_eq_some'.mp h with ⟨e, hfind, he1⟩
      have hmem := List.mem_of_find?_eq_some hfind
      rw [← he1]
      exact scoredEntriesKE_published _ _ e hmem
    · rw [if_neg hM] at h
      cases h

theorem findBestMatch_only_published_w :
    findBestMatch [kpHello] "hello" = some kpHello ∧
    kpHello.status = KPStatus.published :=
  ⟨by decide, findBestMatch_only_published [kpHello] "hello" kpHello (by decide)⟩

/-- Counterexample to claim C2 as stated: a ChatInterface chat turn answers
from a draft knowledge point whose question text equals the query. -/
theorem chatInterface_matches_draft_cex :
    (processQueryCI [kpDraftHello] [] "hello" 0).botMessage.text =
      kpDraftHello.answer ∧
    kpDraftHello.status = KPStatus.draft :=
  ⟨by decide, rfl⟩

/-- Claim C3: for a non-empty query, each matcher returns the best-scoring
knowledge point only when the maximal score strictly exceeds one half (a
score of exactly one half is never selected), returns `none` otherwise, and
resolves ties to the first-seen entry in iteration order over candidates
and then over each candidate's similar-question list. -/
theorem findBestMatch_threshold_firstSeen (kps : List KnowledgePoint)
    (query : String) (h : trimStr query ≠ "") :
    (findBestMatch kps query =
      (if mkRat 1 2 < maxScore 0 (scoredEntriesKE (lowerStr query) kps) then
        firstArgmax (scoredEntriesKE (lowerStr query) kps)
       else none)) ∧
    (findBestMatchCI kps query =
      (if mkRat 1 2 < maxScore 0 (scoredEntriesCI (lowerStr query) kps) then
        firstArgmax (scoredEntriesCI (lowerStr query) kps)
       else none)) :=
  ⟨findBestMatch_char kps query h, findBestMatchCI_char kps query h⟩

theorem findBestMatch_threshold_firstSeen_w :
    trimStr "hello" ≠ "" ∧
    ((findBestMatch [kpHello] "hello" =
      (if mkRat 1 2 < maxScore 0 (scoredEntriesKE (lowerStr "hello") [kpHello]) then
        firstArgmax (scoredEntriesKE (lowerStr "hello") [kpHello])
       else none)) ∧
    (findBestMatchCI [kpHello] "hello" =
      (if mkRat 1 2 < maxScore 0 (scoredEntriesCI (lowerStr "hello") [kpHello]) then
        firstArgmax (scoredEntriesCI (lowerStr "hello") [kpHello])
       else none))) :=
  ⟨by decide, findBestMatch_threshold_firstSeen [kpHello] "hello" (by decide)⟩

/-- Claim C10 (amended): the two matcher implementations are not
extensionally equal in general, but they agree whenever every knowledge
point is published and the query's word set is no larger than the word set
of every comparison string. -/
theorem matchers_agree_under_conditions (kps : List KnowledgePoint)
    (query : String)
    (hpub : ∀ kp ∈ kps, kp.status = KPStatus.published)
    (hsz : ∀ kp ∈ kps,
      (jsWords (lowerStr query)).length ≤
        (jsWords (lowerStr kp.standardQuestion)).length ∧
      ∀ sq ∈ kp.similarQuestions,
        (jsWords (lowerStr query)).length ≤ (jsWords (lowerStr sq)).length) :
    findBestMatchCI kps query = findBestMatch kps query := by
  by_cases htrim : trimStr query = ""
  · rw [findBestMatch, findBestMatchCI, if_pos htrim, if_pos htrim]
  · rw [findBestMatch_char _ _ htrim, findBestMatchCI_char _ _ htrim,
      scoredEntries_eq _ _ hpub hsz]

theorem matchers_agree_under_conditions_w :
    kpHello.status = KPStatus.published ∧
    findBestMatchCI [kpHello] "hi" = findBestMatch [kpHello] "hi" :=
  ⟨rfl, matchers_agree_under_conditions [kpHello] "hi" (by decide) (by decide)⟩

/-- Counterexample to claim C10 as stated: on a draft knowledge point whose
question equals the query, the ChatInterface matcher returns the point
while the KnowledgeEditor matcher returns `none`. -/
theorem matchers_differ_cex :
    findBestMatchCI [kpDraftHello] "hello" = some kpDraftHello ∧
    findBestMatch [kpDraftHello] "hello" = none :=
  ⟨by decide, by decide⟩

lemma relatedFor_eq (kps : List KnowledgePoint) (kp : KnowledgePoint) :
    relatedFor kps kp =
      kp.relatedQuestionIds.filterMap
        (fun rid => (getKnowledgePointById kps rid).bind
          (fun p => if p.status = KPStatus.published then some p else none)) := by
  rw [relatedFor]
  induction kp.relatedQuestionIds with
  | nil => rfl
  | cons rid t ih =>
    rw [List.map_cons, List.foldr_cons, List.filterMap_cons, ih]
    cases hfind : getKnowledgePointById kps rid with
    | none => rfl
    | some p =>
      by_cases hp : p.status = KPStatus.published
      · simp [hp]
      · simp [hp]

/-- Claim C5: a KnowledgeEditor chat turn with no match produces the fixed
fallback bot text and emits exactly one unanswered-question record carrying
the submitted query and the session's ids and the current timestamp; a turn
with a match emits none. -/
theorem processQuery_unanswered_capture (kps : List KnowledgePoint)
    (store : List ChatSession) (session : ChatSession) (robot : Robot)
    (query : String) (now : Int) :
    ((processQueryKE kps store session robot query now).unanswered =
      (match findBestMatch kps query with
       | some _ => []
       | none => [{ id := "uq-" ++ toString now, userId := session.userId,
                    question := query, sessionId := session.id,
                    timestamp := now, robotId := session.robotId }])) ∧
    ((processQueryKE kps store session robot query now).botMessage.text =
      (match findBestMatch kps query with
       | some kp => kp.answer
       | none => fallbackText)) := by
  unfold processQueryKE
  cases findBestMatch kps query <;> simp

/-- Claim C6 (amended): a KnowledgeEditor chat turn that matches produces a
bot message whose text is the matched point's answer and whose related
questions are exactly the referenced points that exist and are published;
the ChatInterface turn drops only dangling ids and keeps unpublished
referenced points. -/
theorem processQuery_match_related (kps : List KnowledgePoint)
    (store : List ChatSession) (session : ChatSession) (robot : Robot)
    (query : String) (now : Int) (kp : KnowledgePoint)
    (h : findBestMatch kps query = some kp) :
    (processQueryKE kps store session robot query now).botMessage.text =
      kp.answer ∧
    (processQueryKE kps store session robot query now).botMessage.relatedQuestions =
      some (kp.relatedQuestionIds.filterMap
        (fun rid => (getKnowledgePointById kps rid).bind
          (fun p => if p.status = KPStatus.published then some p else none))) := by
  unfold processQueryKE
  rw [h]
  exact ⟨rfl, by rw [← relatedFor_eq]⟩

theorem processQuery_match_related_w :
    findBestMatch [kpMain, kpRel, kpDraftHello] "pay" = some kpMain ∧
    ((processQueryKE [kpMain, kpRel, kpDraftHello] [] sessFix robotFix "pay"
        0).botMessage.text = kpMain.answer ∧
     (processQueryKE [kpMain, kpRel, kpDraftHello] [] sessFix robotFix "pay"
        0).botMessage.relatedQuestions =
      some (kpMain.relatedQuestionIds.filterMap
        (fun rid => (getKnowledgePointById [kpMain, kpRel, kpDraftHello] rid).bind
          (fun p => if p.status = KPStatus.published then some p else none)))) :=
  ⟨by decide,
   processQuery_match_related [kpMain, kpRel, kpDraftHello] [] sessFix robotFix
     "pay" 0 kpMain (by decide)⟩

/-- Counterexample to claim C6 as stated: the ChatInterface turn keeps the
referenced draft point in the bot message's related questions, dropping
only the dangling id. -/
theorem chatInterface_related_draft_cex :
    (processQueryCI [kpMain, kpRel, kpDraftHello] [] "pay" 0).botMessage.relatedQuestions =
      some [kpRel, kpDraftHello] ∧
    kpDraftHello.status = KPStatus.draft :=
  ⟨by decide, rfl⟩

/-- Claim C8: a KnowledgeEditor chat turn appends exactly the user message
followed by the bot message to the session's log, leaves every earlier
message unchanged, and persists the full updated session by whole-record
replacement in the session store. -/
theorem processQuery_append_only (kps : List KnowledgePoint)
    (store : List ChatSession) (session : ChatSession) (robot : Robot)
    (query : String) (now : Int) :
    ((processQueryKE kps store session robot query now).session.messages =
      session.messages ++
        [(processQueryKE kps store session robot query now).userMessage,
         (processQueryKE kps store session robot query now).botMessage]) ∧
    (processQueryKE kps store session robot query now).userMessage.sender =
      Sender.user ∧
    (processQueryKE kps store session robot query now).userMessage.text =
      query ∧
    (processQueryKE kps store session robot query now).botMessage.sender =
      Sender.bot ∧
    ((processQueryKE kps store session robot query now).store =
      store.map (fun t =>
        if t.id = (processQueryKE kps store session robot query now).session.id
        then (processQueryKE kps store session robot query now).session
        else t)) := by
  unfold processQueryKE
  cases findBestMatch kps query <;> simp [updateChatSession]

/-- Claim C9 (amended): on session creation the initial bot message's
suggestions are the first three standard questions in caller-supplied
order; the fixed built-in pair is used only when the knowledge-point
collection is empty. -/
theorem initialSuggestions_spec (robot : Robot) (kps : List KnowledgePoint)
    (now : Int) (uid : String) :
    (newSessionKE robot kps now uid).messages.map (fun m => m.suggestions) =
      [some (if kps = [] then fallbackSuggestions
             else (kps.take 3).map (fun kp => kp.standardQuestion))] := by
  cases kps <;>
    simp [newSessionKE, initialSuggestions, starterQuestions]

/-- Counterexample to claim C9 as stated: with a single knowledge point
(fewer than three), the initial suggestions are that point's standard
question, not the fixed built-in pair. -/
theorem initialSuggestions_single_kp_cex :
    (newSessionKE robotFix [kpHello] 0 "u").messages.map (fun m => m.suggestions) =
      [some [kpHello.standardQuestion]] ∧
    [kpHello.standardQuestion] ≠ fallbackSuggestions :=
  ⟨by decide, by decide⟩

lemma mem_collect {α β : Type} (l : List α) (f : α → List β) (b : β) :
    (b ∈ l.foldr (fun s acc => f s ++ acc) []) ↔ ∃ s ∈ l, b ∈ f s := by
  induction l with
  | nil => simp
  | cons s t ih => simp [List.foldr_cons, List.mem_append, ih]

lemma sessionInWindow_iff (threshold : Int) (rf : Option String)
    (s : ChatSession) :
    sessionInWindow threshold rf s = true ↔
      threshold < s.startTime ∧ robotOk rf s := by
  cases rf <;> simp [sessionInWindow, robotOk]

lemma contains_iff_mem (l : List String) (a : String) :
    l.contains a = true ↔ a ∈ l := by
  induction l with
  | nil => simp
  | cons x t ih =>
    rw [List.contains_cons, Bool.or_eq_true, beq_iff_eq, ih, List.mem_cons]

/-- Claim C4 (amended): with no search filter, the staleness analyzer
returns exactly the published knowledge points whose answer text was not
served by a bot message of any session that passes the robot filter and
starts strictly after `now - windowDays` (sessions at exactly the boundary
are outside the window, and no upper time bound is applied). -/
theorem silentKnowledgePoints_characterization (kps : List KnowledgePoint)
    (sessions : List ChatSession) (silenceDays : Int)
    (robotFilter : Option String) (now : Int) :
    ∀ kp, kp ∈ silentKnowledgePoints kps sessions silenceDays robotFilter "" now ↔
      kp ∈ kps ∧ kp.status = KPStatus.published ∧
        ∀ s ∈ sessions, now - silenceDays < s.startTime → robotOk robotFilter s →
          ¬ botUses s kp.answer := by
  intro kp
  have hused : ∀ a : String,
      (a ∈ (sessions.filter (sessionInWindow (now - silenceDays) robotFilter)).foldr
        (fun s acc =>
          ((s.messages.filter (fun m => decide (m.sender = Sender.bot))).map
            (fun m => m.text)) ++ acc) []) ↔
        ∃ s ∈ sessions,
          (now - silenceDays < s.startTime ∧ robotOk robotFilter s) ∧ botUses s a := by
    intro a
    rw [mem_collect]
    constructor
    · rintro ⟨s, hs, hmem⟩
      rcases List.mem_filter.mp hs with ⟨hsl, hwin⟩
      rcases List.mem_map.mp hmem with ⟨m, hm, hma⟩
      rcases List.mem_filter.mp hm with ⟨hml, hbot⟩
      exact ⟨s, hsl, (sessionInWindow_iff _ _ _).mp hwin,
        ⟨m, hml, of_decide_eq_true hbot, hma⟩⟩
    · rintro ⟨s, hsl, hwin, m, hml, hbot, hma⟩
      refine ⟨s, List.mem_filter.mpr ⟨hsl, (sessionInWindow_iff _ _ _).mpr hwin⟩, ?_⟩
      exact List.mem_map.mpr ⟨m, List.mem_filter.mpr ⟨hml, decide_eq_true hbot⟩, hma⟩
  show kp ∈ List.filter _ kps ↔ _
  rw [List.mem_filter]
  simp only [Bool.and_eq_true, decide_eq_true_eq, Bool.not_eq_true',
    Bool.or_eq_true]
  constructor
  · rintro ⟨hmem, ⟨hpub, hnc⟩, _⟩
    refine ⟨hmem, hpub, fun s hs hwin hrob hbu => ?_⟩
    have : kp.answer ∈ _ := (hused kp.answer).mpr ⟨s, hs, ⟨hwin, hrob⟩, hbu⟩
    rw [← contains_iff_mem] at this
    rw [hnc] at this
    cases this
  · rintro ⟨hmem, hpub, hall⟩
    refine ⟨hmem, ⟨hpub, ?_⟩, Or.inl (by rfl)⟩
    rw [← Bool.not_eq_true, contains_iff_mem]
    intro hin
    rcases (hused kp.answer).mp hin with ⟨s, hs, ⟨hwin, hrob⟩, hbu⟩
    exact hall s hs hwin hrob hbu

/-- Counterexample to claim C4 as stated: a published point whose answer
was served verbatim by a session starting exactly at `now - windowDays`
(inside the claim's closed interval) is still reported silent, because the
code compares the boundary with a strict inequality. -/
theorem silent_boundary_cex :
    silentKnowledgePoints [kpAns] [sessBoundary] 30 none "" 100 = [kpAns] ∧
    kpAns.status = KPStatus.published ∧
    (100 : Int) - 30 ≤ sessBoundary.startTime ∧
    sessBoundary.startTime ≤ 100 ∧
    sessBoundary.messages = [msgBotAns] ∧
    msgBotAns.sender = Sender.bot ∧
    msgBotAns.text = kpAns.answer :=
  ⟨by decide, rfl, by decide, by decide, rfl, rfl, rfl⟩

lemma mem_subCats_aux (cats : List Category) (n : Nat) (pid : String)
    (b : String) (l : List Category) :
    (b ∈ l.foldr (fun c acc =>
        if c.parentId = some pid then c.id :: subCats cats n c.id ++ acc
        else acc) []) ↔
      ∃ c ∈ l, c.parentId = some pid ∧ (b = c.id ∨ b ∈ subCats cats n c.id) := by
  induction l with
  | nil => simp
  | cons c t ih =>
    rw [List.foldr_cons]
    by_cases hp : c.parentId = some pid
    · rw [if_pos hp]
      constructor
      · intro hmem
        rcases List.mem_cons.mp hmem with rfl | hmem2
        · exact ⟨c, List.mem_cons_self c t, hp, Or.inl rfl⟩
        · rcases List.mem_append.mp hmem2 with hsub | hrest
          · exact ⟨c, List.mem_cons_self c t, hp, Or.inr hsub⟩
          · rcases ih.mp hrest with ⟨d, hd, hp', hcase⟩
            exact ⟨d, List.mem_cons_of_mem c hd, hp', hcase⟩
      · rintro ⟨d, hd, hp', hcase⟩
        rcases List.mem_cons.mp hd with rfl | hd
        · rcases hcase with rfl | hsub
          · exact List.mem_cons_self _ _
          · exact List.mem_cons_of_mem _ (List.mem_append.mpr (Or.inl hsub))
        · exact List.mem_cons_of_mem _
            (List.mem_append.mpr (Or.inr (ih.mpr ⟨d, hd, hp', hcase⟩)))
    · rw [if_neg hp]
      constructor
      · intro hmem
        rcases ih.mp hmem with ⟨d, hd, hp', hcase⟩
        exact ⟨d, List.mem_cons_of_mem c hd, hp', hcase⟩
      · rintro ⟨d, hd, hp', hcase⟩
        rcases List.mem_cons.mp hd with rfl | hd
        · exact absurd hp' hp
        · exact ih.mpr ⟨d, hd, hp', hcase⟩

lemma mem_subCats (cats : List Category) :
    ∀ (n : Nat) (a b : String),
      b ∈ subCats cats n a ↔ ∃ k, 0 < k ∧ k ≤ n ∧ chainN cats k a b := by
  intro n
  induction n with
  | zero =>
    intro a b
    constructor
    · intro h
      cases h
    · rintro ⟨k, hk0, hkn, _⟩
      omega
  | succ n ih =>
    intro a b
    have hunf : b ∈ subCats cats (n + 1) a ↔
        ∃ c ∈ cats, c.parentId = some a ∧ (b = c.id ∨ b ∈ subCats cats n c.id) :=
      mem_subCats_aux cats n a b cats
    rw [hunf]
    constructor
    · rintro ⟨c, hc, hp, (rfl | hsub)⟩
      · exact ⟨1, one_pos, by omega, ⟨c.id, ⟨c, hc, hp, rfl⟩, rfl⟩⟩
      · rcases (ih c.id b).mp hsub with ⟨k, hk0, hkn, hch⟩
        exact ⟨k + 1, Nat.succ_pos k, by omega, ⟨c.id, ⟨c, hc, hp, rfl⟩, hch⟩⟩
    · rintro ⟨k, hk0, hkn, hch⟩
      cases k with
      | zero => omega
      | succ k' =>
        obtain ⟨m, ⟨c, hc, hp, hcid⟩, hrest⟩ := hch
        cases k' with
        | zero =>
          have hmb : m = b := hrest
          refine ⟨c, hc, hp, Or.inl ?_⟩
          rw [← hmb, hcid]
        | succ k'' =>
          have hsub : b ∈ subCats cats n c.id :=
            (ih c.id b).mpr ⟨k'' + 1, Nat.succ_pos _, by omega, by rw [hcid]; exact hrest⟩
          exact ⟨c, hc, hp, Or.inr hsub⟩

lemma chainN_snoc (cats : List Category) :
    ∀ (k : Nat) (a m b : String), chainN cats k a m → childOf cats m b →
      chainN cats (k + 1) a b := by
  intro k
  induction k with
  | zero =>
    intro a m b hch hcd
    have ham : a = m := hch
    exact ⟨b, by rw [ham]; exact hcd, rfl⟩
  | succ k ih =>
    intro a m b hch hcd
    obtain ⟨m', hcd', hrest⟩ := hch
    exact ⟨m', hcd', ih m' m b hrest hcd⟩

lemma chainN_to_descendant (cats : List Category) :
    ∀ (k : Nat) (a b : String), chainN cats (k + 1) a b → Descendant cats a b := by
  intro k
  induction k with
  | zero =>
    intro a b hch
    obtain ⟨m, hcd, hmb⟩ := hch
    have hm : m = b := hmb
    exact Relation.TransGen.single (hm ▸ hcd)
  | succ k ih =>
    intro a b hch
    obtain ⟨m, hcd, hrest⟩ := hch
    exact Relation.TransGen.head hcd (ih m b hrest)

lemma descendant_iff_chain (cats : List Category) (a b : String) :
    Descendant cats a b ↔ ∃ k, 0 < k ∧ chainN cats k a b := by
  constructor
  · intro h
    induction h with
    | single hcd => exact ⟨1, one_pos, ⟨_, hcd, rfl⟩⟩
    | tail hab hcd ih =>
      rcases ih with ⟨k, hk, hch⟩
      exact ⟨k + 1, Nat.succ_pos _, chainN_snoc cats k _ _ _ hch hcd⟩
  · rintro ⟨k, hk, hch⟩
    cases k with
    | zero => omega
    | succ k' => exact chainN_to_descendant cats k' a b hch

lemma chainN_depth (cats : List Category) (depth : String → Nat)
    (hd : ∀ c ∈ cats, ∀ p, c.parentId = some p → depth p < depth c.id) :
    ∀ (k : Nat) (a b : String), chainN cats k a b → depth a + k ≤ depth b := by
  intro k
  induction k with
  | zero =>
    intro a b hab
    have hab' : a = b := hab
    rw [hab']
    omega
  | succ k ih =>
    intro a b hch
    obtain ⟨m, ⟨c, hc, hp, hcid⟩, hrest⟩ := hch
    have h1 : depth a < depth m := hcid ▸ hd c hc a hp
    have h2 : depth m + k ≤ depth b := ih m b hrest
    omega

lemma chainN_last (cats : List Category) :
    ∀ (k : Nat) (a b : String), chainN cats (k + 1) a b → ∃ c ∈ cats, c.id = b := by
  intro k
  induction k with
  | zero =>
    intro a b hch
    obtain ⟨m, ⟨c, hc, _, hcid⟩, hmb⟩ := hch
    have hm : m = b := hmb
    exact ⟨c, hc, by rw [hcid, hm]⟩
  | succ k ih =>
    intro a b hch
    obtain ⟨m, _, hrest⟩ := hch
    exact ih m b hrest

/-- Claim C7: deleting a category removes it, every descendant category
(transitive closure over `parentId`), and every knowledge point filed under
a removed category; categories outside the closure and knowledge points
referencing them are kept. Stated for category forests, witnessed by a
depth function that increases from parent to child and is bounded by the
number of categories. -/
theorem deleteCategory_cascade (cats : List Category)
    (kps : List KnowledgePoint) (cid : String) (depth : String → Nat)
    (hd : ∀ c ∈ cats, ∀ p, c.parentId = some p → depth p < depth c.id)
    (hb : ∀ c ∈ cats, depth c.id ≤ cats.length) :
    (∀ c, c ∈ (deleteCategory cats kps cid).1 ↔
      c ∈ cats ∧ ¬(c.id = cid ∨ Descendant cats cid c.id)) ∧
    (∀ kp, kp ∈ (deleteCategory cats kps cid).2 ↔
      kp ∈ kps ∧ ¬(kp.categoryId = cid ∨ Descendant cats cid kp.categoryId)) := by
  have hdel : ∀ x : String,
      x ∈ cid :: subCats cats cats.length cid ↔
        (x = cid ∨ Descendant cats cid x) := by
    intro x
    rw [List.mem_cons, mem_subCats]
    constructor
    · rintro (rfl | ⟨k, hk0, _, hch⟩)
      · exact Or.inl rfl
      · exact Or.inr ((descendant_iff_chain cats cid x).mpr ⟨k, hk0, hch⟩)
    · rintro (rfl | hdesc)
      · exact Or.inl rfl
      · rcases (descendant_iff_chain cats cid x).mp hdesc with ⟨k, hk0, hch⟩
        refine Or.inr ⟨k, hk0, ?_, hch⟩
        cases k with
        | zero => omega
        | succ k' =>
          rcases chainN_last cats k' cid x hch with ⟨c, hc, hcid⟩
          have h1 := chainN_depth cats depth hd (k' + 1) cid x hch
          have h2 := hb c hc
          rw [hcid] at h2
          omega
  constructor
  · intro c
    show c ∈ List.filter _ cats ↔ _
    rw [List.mem_filter]
    simp only [decide_eq_true_eq]
    exact and_congr_right (fun _ => not_congr (hdel c.id))
  · intro kp
    show kp ∈ List.filter _ kps ↔ _
    rw [List.mem_filter]
    simp only [decide_eq_true_eq]
    exact and_congr_right (fun _ => not_congr (hdel kp.categoryId))

theorem deleteCategory_cascade_w :
    catD ∉ (deleteCategory [catC, catD, catE] [kpInD, kpInE] "c").1 ∧
    kpInD ∉ (deleteCategory [catC, catD, catE] [kpInD, kpInE] "c").2 ∧
    catC ∉ (deleteCategory [catC, catD, catE] [kpInD, kpInE] "c").1 := by
  have hd : ∀ c ∈ [catC, catD, catE], ∀ p, c.parentId = some p →
      depthFix p < depthFix c.id := by
    intro c hc p hp
    rcases List.mem_cons.mp hc with rfl | hc
    · simp [catC] at hp
    · rcases List.mem_cons.mp hc with rfl | hc
      · simp only [catD] at hp
        injection hp with hp2
        subst hp2
        decide
      · rcases List.mem_cons.mp hc with rfl | hc
        · simp [catE] at hp
        · cases hc
  have hb : ∀ c ∈ [catC, catD, catE],
      depthFix c.id ≤ ([catC, catD, catE] : List Category).length := by decide
  have h := deleteCategory_cascade [catC, catD, catE] [kpInD, kpInE] "c"
    depthFix hd hb
  refine ⟨fun hmem => ?_, fun hmem => ?_, fun hmem => ?_⟩
  · exact ((h.1 catD).mp hmem).2
      (Or.inr (Relation.TransGen.single ⟨catD, by decide, rfl, rfl⟩))
  · exact ((h.2 kpInD).mp hmem).2
      (Or.inr (Relation.TransGen.single ⟨catD, by decide, rfl, rfl⟩))
  · exact ((h.1 catC).mp hmem).2 (Or.inl rfl)
